import Mathlib

/-!
# Verification of the knex-modeller schema-validation / CRUD-generation core

This file gives a shallow embedding of `lib/model.js` (latest revision: the
one that carries the `Model()` argument guard, `transform` support and the
static `deleteWhere`) and proves properties of the embedded definitions.

Conventions of the embedding:
* JavaScript values are `JSVal`; `vUndefined` is the value `undefined`, key
  absence in an object reads back as `vUndefined` (as `values[key]` does).
* A JavaScript object is an association list `Obj` in insertion order;
  `objSet` overwrites the first occurrence of an existing key and appends a
  missing one, which matches property assignment on a JS object.
* Functions stored in the schema (`default` producers, `validate`,
  `transform`) are embedded as Lean functions; user override functions are
  opaque and identified by a numeric tag (`OvEntry.fn`), since only their
  identity is observable at model-definition time.
* The knex query builder is the external collaborator: each generated
  operation returns the list of `KnexCall`s it issued (in order) together
  with its outcome.  A synchronous throw is an `Except.error` with an empty
  call trace; a rejection that happens inside a promise chain carries the
  calls issued before it.  Responses come from a `KnexDB` oracle.
* `check-types` semantics embedded here: `check.string` tests only
  `typeof x === 'string'` (the empty string passes), `check.object` accepts
  exactly non-null non-array objects, and `check.assert[name]` for an
  unknown predicate name throws, which `checkTypes` converts into the same
  "wrong type" `TypeError` as a failing predicate.
-/

namespace KnexModeller

/-- A JavaScript runtime value, as far as the modeller observes it. -/
inductive JSVal where
  | vUndefined : JSVal
  | vNull : JSVal
  | vBool : Bool → JSVal
  | vNum : Int → JSVal
  | vStr : String → JSVal
  | vObj : List (String × JSVal) → JSVal
  | vArr : List JSVal → JSVal

/-- A JavaScript object: association list of own enumerable properties in
insertion order. -/
abbrev Obj := List (String × JSVal)

/-- Property read `o[k]`: the first binding of `k`, or `undefined`. -/
def objLookup (o : Obj) (k : String) : JSVal :=
  match o with
  | [] => JSVal.vUndefined
  | (k', v) :: rest => if k' == k then v else objLookup rest k

/-- `hasOwnProperty` / `_.has`. -/
def objHasKey (o : Obj) (k : String) : Bool :=
  match o with
  | [] => false
  | (k', _) :: rest => k' == k || objHasKey rest k

/-- Property assignment `o[k] = v`: overwrite in place, else append. -/
def objSet (o : Obj) (k : String) (v : JSVal) : Obj :=
  match o with
  | [] => [(k, v)]
  | (k', v') :: rest => if k' == k then (k, v) :: rest else (k', v') :: objSet rest k v

/-- `delete o[k]`. -/
def objRemove (o : Obj) (k : String) : Obj :=
  o.filter (fun kv => !(kv.1 == k))

/-- `_.extend(base, add)` / `applyValues(base, add)`: copy every key of
`add` onto `base` in order. -/
def objExtend (base add : Obj) : Obj :=
  add.foldl (fun acc kv => objSet acc kv.1 kv.2) base

/-- JavaScript truthiness of the embedded values. -/
def jsTruthy : JSVal → Bool
  | JSVal.vUndefined => false
  | JSVal.vNull => false
  | JSVal.vBool b => b
  | JSVal.vNum n => !(n == 0)
  | JSVal.vStr s => !(s == "")
  | JSVal.vObj _ => true
  | JSVal.vArr _ => true

/-- `_.isUndefined`. -/
def jsIsUndefined : JSVal → Bool
  | JSVal.vUndefined => true
  | _ => false

/-- `_.isNull`. -/
def jsIsNull : JSVal → Bool
  | JSVal.vNull => true
  | _ => false

/-- `typeof`. -/
def typeofStr : JSVal → String
  | JSVal.vUndefined => "undefined"
  | JSVal.vNull => "object"
  | JSVal.vBool _ => "boolean"
  | JSVal.vNum _ => "number"
  | JSVal.vStr _ => "string"
  | JSVal.vObj _ => "object"
  | JSVal.vArr _ => "object"

/-- String coercion, used only to build error-message text. Array and
object coercions are approximated; no proved property depends on them. -/
def jsToString : JSVal → String
  | JSVal.vUndefined => "undefined"
  | JSVal.vNull => "null"
  | JSVal.vBool b => if b then "true" else "false"
  | JSVal.vNum n => toString n
  | JSVal.vStr s => s
  | JSVal.vObj _ => "[object Object]"
  | JSVal.vArr _ => ""

/-- `check.string`: `typeof x === 'string'`; the empty string passes. -/
def checkString : JSVal → Bool
  | JSVal.vStr _ => true
  | _ => false

/-- `check.object`: a non-null, non-array object. -/
def checkObject : JSVal → Bool
  | JSVal.vObj _ => true
  | _ => false

/-- Thrown JavaScript errors observed by callers. `new Error(a, b, c)`
keeps only its first argument as the message; the others are discarded. -/
inductive JsErr where
  | error (msg : String)
  | typeError (msg : String)
deriving DecidableEq, Repr

/-- The `default` entry of a field definition: a literal value or a
zero-argument producer function. -/
inductive DefaultSpec where
  | lit (v : JSVal)
  | fnDef (f : Unit → JSVal)

/-- One field definition of a schema (the non-reserved entries). -/
structure FieldDef where
  type : String
  default : Option DefaultSpec := none
  nullable : Bool := false
  autoIncrement : Bool := false
  primaryId : Bool := false
  validate : Option (JSVal → JSVal) := none
  transform : Option (JSVal → JSVal) := none

/-- The field-definition map, in declaration order. -/
abbrev Defs := List (String × FieldDef)

/-- `definitions.hasOwnProperty(key)`. -/
def defsHasKey (defs : Defs) (k : String) : Bool :=
  match defs with
  | [] => false
  | (k', _) :: rest => k' == k || defsHasKey rest k

/-- `definitions[key]`. -/
def defsLookup (defs : Defs) (k : String) : Option FieldDef :=
  match defs with
  | [] => none
  | (k', d) :: rest => if k' == k then some d else defsLookup rest k

/-- `!_.isUndefined(def.default) && !_.isNull(def.default)`: a default set
to `undefined` or `null` counts as absent. -/
def defaultPresent : Option DefaultSpec → Bool
  | none => false
  | some (DefaultSpec.lit JSVal.vUndefined) => false
  | some (DefaultSpec.lit JSVal.vNull) => false
  | some _ => true

/-- Resolve a default: invoke it if it is a function, else use the literal. -/
def resolveDefault : Option DefaultSpec → JSVal
  | none => JSVal.vUndefined
  | some (DefaultSpec.lit v) => v
  | some (DefaultSpec.fnDef f) => f ()

/-- `check.assert[name](value)` as a boolean: the type predicates the
modeller is used with.  An unknown predicate name yields `false`, matching
the fact that `check.assert[name]` then throws and `checkTypes` converts
any throw into its own "wrong type" `TypeError`. -/
def checkTypePred : String → JSVal → Bool
  | "string", JSVal.vStr _ => true
  | "number", JSVal.vNum _ => true
  | "positive", JSVal.vNum n => decide (0 < n)
  | "boolean", JSVal.vBool _ => true
  | "object", JSVal.vObj _ => true
  | _, _ => false

/-- The body of the `_.each` in `checkTypes`, for one field. -/
def checkField (values : Obj) (key : String) (defn : FieldDef) : Except JsErr Unit :=
  let v0 := objLookup values key
  let staged : Except JsErr (Option JSVal) :=
    if jsIsUndefined v0 || jsIsNull v0 then
      if defaultPresent defn.default then
        Except.ok (some (resolveDefault defn.default))
      else if defn.nullable || defn.autoIncrement then
        Except.ok none
      else
        Except.error (JsErr.error ("Missing required property " ++ key))
    else
      Except.ok (some v0)
  match staged with
  | Except.error e => Except.error e
  | Except.ok none => Except.ok ()
  | Except.ok (some value) =>
    if !(checkTypePred defn.type value) then
      Except.error (JsErr.typeError ("Field " ++ key ++ " requires type " ++
        defn.type ++ " but has type " ++ typeofStr value))
    else
      match defn.validate with
      | none => Except.ok ()
      | some f =>
        match f value with
        | JSVal.vBool true => Except.ok ()
        | JSVal.vBool false =>
          Except.error (JsErr.typeError ("Value " ++ jsToString value ++
            " did not pass custom validation function on field " ++ key))
        | _ =>
          Except.error (JsErr.typeError ("validate() function for " ++ key ++
            " must return a boolean."))

/-- `checkTypes(definitions, values)`: validate `values` against every
field definition in declaration order; the first failure throws.  The
resolved default is only a local inside the loop — it is never written
back into `values`. -/
def checkTypes (definitions : Defs) (values : Obj) : Except JsErr Unit :=
  match definitions with
  | [] => Except.ok ()
  | (key, defn) :: rest =>
    match checkField values key defn with
    | Except.error e => Except.error e
    | Except.ok _ => checkTypes rest values

/-- The record constructor `m(values)`: drop unknown keys, apply
per-field transforms, validate, then copy the surviving values (and only
them) onto the fresh instance. -/
def mConstruct (definitions : Defs) (values : Obj) : Except JsErr Obj :=
  let picked := values.filter (fun kv => defsHasKey definitions kv.1)
  let transformed := picked.map (fun kv =>
    match defsLookup definitions kv.1 with
    | some d =>
      match d.transform with
      | some f => (kv.1, f kv.2)
      | none => kv
    | none => kv)
  match checkTypes definitions transformed with
  | Except.error e => Except.error e
  | Except.ok _ => Except.ok transformed

/-- A user-supplied entry of the `_overrides` map: either an (opaque)
function identified by a tag, or a non-function value. -/
inductive OvEntry where
  | fn (id : Nat)
  | notFn (v : JSVal)

/-- The raw schema object passed to `Model`, with the reserved keys
`_statics` and `_overrides` split off (exactly what the source extracts
and deletes before any field iteration).  `overrides = none` covers both
an absent `_overrides` and a non-object one, which the source skips via
its `_.isObject` guard. -/
structure Schema where
  fields : Defs := []
  statics : Option JSVal := none
  overrides : Option (List (String × OvEntry)) := none

/-- `var mutableMethods = ['get', 'getOne', 'insert', 'update'];` -/
def mutableMethods : List String := ["get", "getOne", "insert", "update"]

/-- The `_.each` over `definitions._overrides`: copy function values for
allowed keys into `overrides`, throw on a non-function value or a
non-allowed key. -/
def validateOverrides (table : String) : List (String × OvEntry) → Except JsErr (List (String × Nat))
  | [] => Except.ok []
  | (key, entry) :: rest =>
    if mutableMethods.contains key then
      match entry with
      | OvEntry.fn id =>
        match validateOverrides table rest with
        | Except.error e => Except.error e
        | Except.ok tl => Except.ok ((key, id) :: tl)
      | OvEntry.notFn _ =>
        Except.error (JsErr.typeError "Model _overrides object should only contain functions")
    else
      Except.error (JsErr.error ("Cannot override immutable method " ++ key ++
        " on model " ++ table))

/-- Truthiness of `m._primaryKey`: unset is `undefined` (falsy) and a key
named by the empty string is also falsy. -/
def pkTruthy : Option String → Bool
  | none => false
  | some s => !(s == "")

/-- `this[m._primaryKey]` key coercion: an unset `m._primaryKey` is
`undefined`, which indexing coerces to the string `"undefined"`. -/
def pkKeyName : Option String → String
  | none => "undefined"
  | some s => s

/-- The `_.each` that fills `m._primaryKey` and `m._hasDeletedBit`: the
first field with `primaryId === true` becomes the primary key, a second
one while the stored key is truthy throws. -/
def scanMeta (table : String) : Defs → Option String → Bool → Except JsErr (Option String × Bool)
  | [], pk, del => Except.ok (pk, del)
  | (key, defn) :: rest, pk, del =>
    if defn.primaryId && !(pkTruthy pk) then
      scanMeta table rest (some key) (del || key == "deleted")
    else if defn.primaryId && pkTruthy pk then
      Except.error (JsErr.error ("Cannot have multiple primary keys on model " ++ table))
    else
      scanMeta table rest pk (del || key == "deleted")

/-- Which implementation a generated operation slot holds. -/
inductive OpImpl where
  | dflt
  | override (id : Nat)
deriving DecidableEq, Repr

/-- `if (overrides[key]) m.op = overrides[key] else` default.  Validated
overrides are always functions, hence truthy. -/
def installOp (installed : List (String × Nat)) (key : String) : OpImpl :=
  match installed.lookup key with
  | some id => OpImpl.override id
  | none => OpImpl.dflt

/-- The generated model type: its captured metadata and which
implementation each operation slot received. -/
structure ModelClass where
  table : String
  defs : Defs
  primaryKey : Option String := none
  hasDeletedBit : Bool := false
  getI : OpImpl := OpImpl.dflt
  getOneI : OpImpl := OpImpl.dflt
  deleteWhereI : OpImpl := OpImpl.dflt
  insertI : OpImpl := OpImpl.dflt
  updateI : OpImpl := OpImpl.dflt
  deleteI : OpImpl := OpImpl.dflt

/-- `Model(table, definitions)`: the argument guard, override validation,
and the primary-key / deleted-bit scan, producing the model type.  A
non-string table argument or a non-object schema argument (`none`) fails
the `check.string` / `check.object` guard. -/
def Model (tableArg : JSVal) (schemaArg : Option Schema) : Except JsErr ModelClass :=
  match tableArg, schemaArg with
  | JSVal.vStr table, some schema =>
    (match (match schema.overrides with
            | some ov => validateOverrides table ov
            | none => Except.ok []) with
     | Except.error e => Except.error e
     | Except.ok installed =>
       match scanMeta table schema.fields none false with
       | Except.error e => Except.error e
       | Except.ok (pk, del) =>
         Except.ok { table := table, defs := schema.fields,
                     primaryKey := pk, hasDeletedBit := del,
                     getI := installOp installed "get",
                     getOneI := installOp installed "getOne",
                     deleteWhereI := installOp installed "deleteWhere",
                     insertI := installOp installed "insert",
                     updateI := installOp installed "update",
                     deleteI := installOp installed "delete" })
  | _, _ =>
    Except.error (JsErr.typeError
      "Model() must be called with a string table name and an object schema definition")

/-- One call issued to the knex collaborator.  `select` records the
`.where` predicate and, when the statement sets them, `.limit`,
`.offset` and `.orderBy`; `del` covers both `.delete()` and `.del()`. -/
inductive KnexCall where
  | select (table : String) (whereQ : Obj) (limit offset : Option JSVal)
           (orderBy : Option (JSVal × String))
  | insert (table : String) (values : Obj)
  | update (table : String) (whereQ : Obj) (values : Obj)
  | del (table : String) (whereQ : Obj)

/-- The collaborator's response oracle: what each issued call resolves
with (rows for a select, the id array for an insert, an affected-row
count for update/delete). -/
structure KnexDB where
  selectResp : KnexCall → List Obj
  insertResp : KnexCall → List JSVal
  writeResp : KnexCall → Int

/-- Outcome of a static operation: the final state of the caller's query
argument (the source mutates it in place), the calls issued in order, and
the settled result.  A synchronous throw has an empty trace. -/
structure StaticOut (α : Type) where
  queryAfter : JSVal
  trace : List KnexCall
  result : Except JsErr α

/-- Outcome of an instance operation: the instance's own fields after the
call (the source mutates `this`), the calls issued, and the result. -/
structure InstOut (α : Type) where
  selfAfter : Obj
  trace : List KnexCall
  result : Except JsErr α

/-- `query || {}` after the object guard has passed. -/
def asObjOrEmpty (v : JSVal) : Obj :=
  if jsTruthy v then
    match v with
    | JSVal.vObj fs => fs
    | _ => []
  else []

/-- `_.defaults(options, defaults)`: fill each default key whose current
value is `undefined`. -/
def defaultsApply (o : Obj) : List (String × JSVal) → Obj
  | [] => o
  | (k, v) :: rest =>
    if jsIsUndefined (objLookup o k) then defaultsApply (objSet o k v) rest
    else defaultsApply o rest

/-- The default static `get(query, options)`. -/
def defaultGet (mc : ModelClass) (db : KnexDB) (query options : JSVal) :
    StaticOut (List Obj) :=
  if (jsTruthy query && !(checkObject query)) ||
     (jsTruthy options && !(checkObject options)) then
    { queryAfter := query, trace := [],
      result := Except.error (JsErr.typeError "Arguments to get() must be of type object") }
  else
    let q0 := asObjOrEmpty query
    let o0 := asObjOrEmpty options
    let o1 := defaultsApply o0
      ([("limit", JSVal.vNum 100), ("offset", JSVal.vNum 0)] ++
       (if pkTruthy mc.primaryKey then
          [("orderBy", JSVal.vStr (pkKeyName mc.primaryKey)), ("asc", JSVal.vBool true)]
        else []))
    let q1 := if mc.hasDeletedBit && jsIsUndefined (objLookup q0 "deleted") then
                objSet q0 "deleted" (JSVal.vNum 0)
              else q0
    let qAfter := if checkObject query then JSVal.vObj q1 else query
    let call := KnexCall.select mc.table q1 (some (objLookup o1 "limit"))
      (some (objLookup o1 "offset"))
      (if jsTruthy (objLookup o1 "orderBy") then
         some (objLookup o1 "orderBy",
               if jsTruthy (objLookup o1 "asc") then "asc" else "desc")
       else none)
    let rows := db.selectResp call
    { queryAfter := qAfter, trace := [call],
      result := rows.mapM (mConstruct mc.defs) }

/-- The default static `getOne(query)`. -/
def defaultGetOne (mc : ModelClass) (db : KnexDB) (query : JSVal) :
    StaticOut (Option Obj) :=
  if jsTruthy query && !(checkObject query) then
    { queryAfter := query, trace := [],
      result := Except.error (JsErr.typeError "Argument to getOne() must be of type object") }
  else
    let q0 := asObjOrEmpty query
    let q1 := if mc.hasDeletedBit && jsIsUndefined (objLookup q0 "deleted") then
                objSet q0 "deleted" (JSVal.vNum 0)
              else q0
    let qAfter := if checkObject query then JSVal.vObj q1 else query
    let call := KnexCall.select mc.table q1 none none none
    { queryAfter := qAfter, trace := [call],
      result :=
        match db.selectResp call with
        | [] => Except.ok none
        | r :: _ => (mConstruct mc.defs r).map some }

/-- The default static `deleteWhere(query)`.  In soft-delete mode the
source assigns `query.deleted = 0` unconditionally, overwriting any
caller-supplied value, and issues an update setting `deleted` to `1`;
otherwise it issues a hard delete. -/
def defaultDeleteWhere (mc : ModelClass) (db : KnexDB) (query : JSVal) :
    StaticOut Int :=
  if !(checkObject query) then
    { queryAfter := query, trace := [],
      result := Except.error (JsErr.typeError "deleteWhere() requires an argument of type object") }
  else
    let q0 := asObjOrEmpty query
    if mc.hasDeletedBit then
      let q1 := objSet q0 "deleted" (JSVal.vNum 0)
      let call := KnexCall.update mc.table q1 [("deleted", JSVal.vNum 1)]
      { queryAfter := JSVal.vObj q1, trace := [call], result := Except.ok (db.writeResp call) }
    else
      let call := KnexCall.del mc.table q0
      { queryAfter := JSVal.vObj q0, trace := [call], result := Except.ok (db.writeResp call) }

/-- `delete self[key]` for every `autoIncrement` field definition. -/
def stripAutoIncrement (defs : Defs) (self : Obj) : Obj :=
  match defs with
  | [] => self
  | (k, d) :: rest =>
    stripAutoIncrement rest (if d.autoIncrement then objRemove self k else self)

/-- What the default instance `insert()` resolves with. -/
inductive InsertResult where
  | fetched (rec : Option Obj)
  | rawResult (ids : List JSVal)

/-- The default instance `insert()`: strip `autoIncrement` fields from
`this`, then — when `m._primaryKey` is truthy — issue the insert and
chain `m.getOne({[pk]: result[0]})`, else resolve with the raw insert
result.  The chained fetch assumes `getOne` was not overridden. -/
def defaultInsert (mc : ModelClass) (db : KnexDB) (self : Obj) :
    InstOut InsertResult :=
  let self1 := stripAutoIncrement mc.defs self
  let icall := KnexCall.insert mc.table self1
  if pkTruthy mc.primaryKey then
    let insertId := (db.insertResp icall).headD JSVal.vUndefined
    let g := defaultGetOne mc db (JSVal.vObj [(pkKeyName mc.primaryKey, insertId)])
    { selfAfter := self1, trace := icall :: g.trace,
      result := g.result.map InsertResult.fetched }
  else
    { selfAfter := self1, trace := [icall],
      result := Except.ok (InsertResult.rawResult (db.insertResp icall)) }

/-- The default instance `update(updateWith)`: merge onto a clone of
`this`, validate the merged values (synchronously, before any knex
call), key the `where` clause on `this[m._primaryKey]` with no guard —
an unset primary key indexes the string `"undefined"` — filter to
schema-known keys, issue the update, then construct a fresh record from
the filtered values and copy it onto `this`. -/
def defaultUpdate (mc : ModelClass) (db : KnexDB) (self updateWith : Obj) :
    InstOut Obj :=
  let merged := objExtend self updateWith
  match checkTypes mc.defs merged with
  | Except.error e => { selfAfter := self, trace := [], result := Except.error e }
  | Except.ok _ =>
    let pkKey := pkKeyName mc.primaryKey
    let whereClause : Obj := [(pkKey, objLookup self pkKey)]
    let picked := merged.filter (fun kv => defsHasKey mc.defs kv.1)
    let call := KnexCall.update mc.table whereClause picked
    let _ := db.writeResp call
    let built := mConstruct mc.defs picked
    { selfAfter :=
        match built with
        | Except.ok updated => objExtend self updated
        | Except.error _ => self,
      trace := [call],
      result := built }

/-- The default instance `delete()`: requires a truthy `m._primaryKey`,
else throws `new Error('Cannot delete', table, ...)` — whose message is
just `'Cannot delete'`, the extra arguments being discarded.  Soft-delete
mode updates `deleted = 1`; otherwise it issues a hard `.del()`. -/
def defaultDelete (mc : ModelClass) (db : KnexDB) (self : Obj) : InstOut Int :=
  if pkTruthy mc.primaryKey then
    let pkKey := pkKeyName mc.primaryKey
    let whereClause : Obj := [(pkKey, objLookup self pkKey)]
    let call := if mc.hasDeletedBit then
                  KnexCall.update mc.table whereClause [("deleted", JSVal.vNum 1)]
                else KnexCall.del mc.table whereClause
    { selfAfter := self, trace := [call], result := Except.ok (db.writeResp call) }
  else
    { selfAfter := self, trace := [], result := Except.error (JsErr.error "Cannot delete") }

/-! ## Concrete fixtures used by the settled claims -/

/-- A response oracle: every select answers no rows, every insert answers
`[1]`, every write affects one row. -/
def db0 : KnexDB :=
  { selectResp := fun _ => [], insertResp := fun _ => [JSVal.vNum 1],
    writeResp := fun _ => 1 }

/-- The schema of the spec's worked scenario:
`{id: positive/primaryId/autoIncrement, name: string default 'Untitled'}`. -/
def scenarioDefs : Defs :=
  [("id", { type := "positive", primaryId := true, autoIncrement := true }),
   ("name", { type := "string", default := some (DefaultSpec.lit (JSVal.vStr "Untitled")) })]

/-- A one-field schema: `{name: {type: 'string'}}`. -/
def nameDefs : Defs := [("name", { type := "string" })]

/-- The model generated for `nameDefs` with no primary key. -/
def mcName : ModelClass := { table := "t", defs := nameDefs }

/-- A schema with a literal `deleted` field. -/
def softDefs : Defs := [("deleted", { type := "number" })]

/-- The model generated for `softDefs`: soft-delete mode, no primary key. -/
def mcSoft : ModelClass := { table := "t", defs := softDefs, hasDeletedBit := true }

/-! ## Helper lemmas -/

theorem objHasKey_map_keep (l : Obj) (f : String × JSVal → String × JSVal)
    (hf : ∀ kv, (f kv).1 = kv.1) (k : String) :
    objHasKey (l.map f) k = objHasKey l k := by
  induction l with
  | nil => rfl
  | cons hd tl ih => simp [objHasKey, hf, ih]

theorem objHasKey_filter_imp (l : Obj) (p : String × JSVal → Bool) (k : String)
    (h : objHasKey (l.filter p) k = true) : objHasKey l k = true := by
  induction l with
  | nil => exact h
  | cons hd tl ih =>
    by_cases hp : p hd
    · simp only [List.filter_cons, hp, if_true, objHasKey, Bool.or_eq_true] at h ⊢
      rcases h with h | h
      · exact Or.inl h
      · exact Or.inr (ih h)
    · simp only [List.filter_cons, hp, if_neg, Bool.false_eq_true, objHasKey,
        Bool.or_eq_true] at h ⊢
      exact Or.inr (ih h)

/-! ## Claim C1 -/

/-- C1 (amended): constructing a record never materializes defaults onto
the instance — every key of the constructed instance was already a key of
the raw value object.  `checkTypes` resolves a default only into a local
variable, so the validated-with-default value set is never copied on. -/
theorem C1_construct_no_new_keys (defs : Defs) (values inst : Obj) (k : String)
    (h : mConstruct defs values = Except.ok inst) (hk : objHasKey inst k = true) :
    objHasKey values k = true := by
  unfold mConstruct at h
  dsimp only at h
  split at h
  · exact Except.noConfusion h
  · injection h with h2
    rw [← h2] at hk
    rw [objHasKey_map_keep] at hk
    · exact objHasKey_filter_imp _ _ _ hk
    · intro kv
      rcases hdl : defsLookup defs kv.1 with _ | d <;> simp only [hdl]
      rcases ht : d.transform with _ | f <;> simp only [ht]

/-- C1 witness: a concrete run of the amended theorem. -/
theorem C1_construct_no_new_keys_witness :
    mConstruct nameDefs [("name", JSVal.vStr "a"), ("x", JSVal.vNum 3)] =
      Except.ok [("name", JSVal.vStr "a")] ∧
    objHasKey [("name", JSVal.vStr "a"), ("x", JSVal.vNum 3)] "name" = true :=
  ⟨rfl, C1_construct_no_new_keys nameDefs
    [("name", JSVal.vStr "a"), ("x", JSVal.vNum 3)] [("name", JSVal.vStr "a")] "name" rfl rfl⟩

/-- C1 counterexample: for the spec's own scenario schema, constructing
with `{}` succeeds but yields an instance with no `name` field at all —
the resolved default `'Untitled'` is not carried on the instance. -/
theorem C1_cex :
    mConstruct scenarioDefs [] = Except.ok [] ∧
    objLookup [] "name" = JSVal.vUndefined ∧
    JSVal.vUndefined ≠ JSVal.vStr "Untitled" :=
  ⟨rfl, rfl, fun h => JSVal.noConfusion h⟩

/-! ## Claim C2 -/

/-- C2 (amended): the default instance `update` runs the Type Checker on
the merged value set synchronously, and a validation fault aborts the
operation before any collaborator call is issued: the call trace is empty,
the instance is untouched, and the fault propagates.  (The default
instance `insert`, by contrast, performs no validation of its own — see
the counterexample.) -/
theorem C2_update_validates_first (mc : ModelClass) (db : KnexDB)
    (self updateWith : Obj) (e : JsErr)
    (h : checkTypes mc.defs (objExtend self updateWith) = Except.error e) :
    defaultUpdate mc db self updateWith =
      { selfAfter := self, trace := [], result := Except.error e } := by
  unfold defaultUpdate
  dsimp only
  rw [h]

/-- C2 witness: a concrete invalid update on `{name: string}`. -/
theorem C2_update_validates_first_witness :
    checkTypes mcName.defs (objExtend [("name", JSVal.vStr "a")] [("name", JSVal.vNum 3)]) =
      Except.error (JsErr.typeError "Field name requires type string but has type number") ∧
    defaultUpdate mcName db0 [("name", JSVal.vStr "a")] [("name", JSVal.vNum 3)] =
      { selfAfter := [("name", JSVal.vStr "a")], trace := [],
        result := Except.error
          (JsErr.typeError "Field name requires type string but has type number") } :=
  ⟨rfl, C2_update_validates_first mcName db0 [("name", JSVal.vStr "a")]
    [("name", JSVal.vNum 3)] _ rfl⟩

/-- C2 counterexample: the default instance `insert` never invokes the
Type Checker.  An instance whose data fails validation (reachable, since
JS instance fields are freely assignable after construction) is submitted
to the collaborator unchanged: the trace contains the insert call and the
operation resolves instead of raising the validation fault. -/
theorem C2_cex :
    checkTypes nameDefs [("name", JSVal.vNum 123)] =
      Except.error (JsErr.typeError "Field name requires type string but has type number") ∧
    defaultInsert mcName db0 [("name", JSVal.vNum 123)] =
      { selfAfter := [("name", JSVal.vNum 123)],
        trace := [KnexCall.insert "t" [("name", JSVal.vNum 123)]],
        result := Except.ok (InsertResult.rawResult [JSVal.vNum 1]) } :=
  ⟨rfl, rfl⟩

/-! ## Claim C3 -/

/-- C3 (amended): on a model whose schema has a field literally named
`deleted`, the default `get` and `getOne` add `deleted = 0` to the issued
predicate exactly when the caller's query reads `undefined` at `deleted`,
and otherwise pass the caller's predicate through unchanged; the default
`deleteWhere`, however, always forces `deleted = 0`, overwriting any
caller-supplied value. -/
theorem C3_soft_delete_injection (mc : ModelClass) (db : KnexDB) (q : Obj)
    (hd : mc.hasDeletedBit = true) :
    (defaultGet mc db (JSVal.vObj q) JSVal.vUndefined).trace =
      [KnexCall.select mc.table
        (if jsIsUndefined (objLookup q "deleted") then objSet q "deleted" (JSVal.vNum 0) else q)
        (some (JSVal.vNum 100)) (some (JSVal.vNum 0))
        (if pkTruthy mc.primaryKey then
           some (JSVal.vStr (pkKeyName mc.primaryKey), "asc")
         else none)] ∧
    (defaultGetOne mc db (JSVal.vObj q)).trace =
      [KnexCall.select mc.table
        (if jsIsUndefined (objLookup q "deleted") then objSet q "deleted" (JSVal.vNum 0) else q)
        none none none] ∧
    (defaultDeleteWhere mc db (JSVal.vObj q)).trace =
      [KnexCall.update mc.table (objSet q "deleted" (JSVal.vNum 0))
        [("deleted", JSVal.vNum 1)]] := by
  refine ⟨?_, ?_, ?_⟩
  · unfold defaultGet
    dsimp only
    simp only [jsTruthy, checkObject, Bool.not_true, Bool.and_false, Bool.or_self,
      Bool.false_and, hd, true_and, if_false, Bool.and_self]
    by_cases hpk : pkTruthy mc.primaryKey <;>
      by_cases hdel : jsIsUndefined (objLookup q "deleted") <;>
        cases hmk : mc.primaryKey <;>
          simp_all [asObjOrEmpty, jsTruthy, defaultsApply, objLookup, objSet,
            jsIsUndefined, pkKeyName, pkTruthy]
  · unfold defaultGetOne
    dsimp only
    by_cases hdel : jsIsUndefined (objLookup q "deleted") <;>
      simp [hdel, asObjOrEmpty, jsTruthy, checkObject, hd]
  · unfold defaultDeleteWhere
    dsimp only
    simp [asObjOrEmpty, jsTruthy, checkObject, hd]

/-- C3 witness: concrete soft-delete model, query without a `deleted`
key. -/
theorem C3_soft_delete_injection_witness :
    mcSoft.hasDeletedBit = true ∧
    (defaultGetOne mcSoft db0 (JSVal.vObj [("foo", JSVal.vStr "bar")])).trace =
      [KnexCall.select "t" [("foo", JSVal.vStr "bar"), ("deleted", JSVal.vNum 0)]
        none none none] :=
  ⟨rfl, (C3_soft_delete_injection mcSoft db0 [("foo", JSVal.vStr "bar")] rfl).2.1⟩

/-- C3 counterexample: a caller-supplied `deleted` value is not preserved
by `deleteWhere` — passing `{deleted: 1}` issues a predicate with
`deleted = 0`. -/
theorem C3_cex :
    (defaultDeleteWhere mcSoft db0 (JSVal.vObj [("deleted", JSVal.vNum 1)])).trace =
      [KnexCall.update "t" [("deleted", JSVal.vNum 0)] [("deleted", JSVal.vNum 1)]] ∧
    JSVal.vNum 0 ≠ JSVal.vNum 1 := by
  refine ⟨rfl, ?_⟩
  intro h
  injection h with h2
  exact absurd h2 (by decide)

/-! ## Claim C4 -/

/-- C4 (amended): on a model with no primary key, instance `delete()`
does fail synchronously before any storage call, but its error message is
just `'Cannot delete'` — the table name is passed as a discarded second
argument to `Error` and never reaches the message; instance
`update(partialValues)` performs no guard at all: once validation passes
it issues the update with a predicate keyed on the string `"undefined"`. -/
theorem C4_no_pk_guard (mc : ModelClass) (db : KnexDB) (self updateWith : Obj)
    (hpk : mc.primaryKey = none)
    (hok : checkTypes mc.defs (objExtend self updateWith) = Except.ok ()) :
    defaultDelete mc db self =
      { selfAfter := self, trace := [],
        result := Except.error (JsErr.error "Cannot delete") } ∧
    (defaultUpdate mc db self updateWith).trace =
      [KnexCall.update mc.table [("undefined", objLookup self "undefined")]
        ((objExtend self updateWith).filter (fun kv => defsHasKey mc.defs kv.1))] := by
  constructor
  · unfold defaultDelete
    simp [hpk, pkTruthy]
  · unfold defaultUpdate
    dsimp only
    rw [hok]
    simp [hpk, pkKeyName]

/-- C4 witness: concrete run on the primary-key-less `{name: string}`
model. -/
theorem C4_no_pk_guard_witness :
    mcName.primaryKey = none ∧
    defaultDelete mcName db0 [("name", JSVal.vStr "a")] =
      { selfAfter := [("name", JSVal.vStr "a")], trace := [],
        result := Except.error (JsErr.error "Cannot delete") } ∧
    (defaultUpdate mcName db0 [("name", JSVal.vStr "a")] []).trace =
      [KnexCall.update "t" [("undefined", JSVal.vUndefined)]
        [("name", JSVal.vStr "a")]] := by
  refine ⟨rfl, ?_⟩
  have h := C4_no_pk_guard mcName db0 [("name", JSVal.vStr "a")] [] rfl rfl
  exact ⟨h.1, h.2⟩

/-- C4 counterexample: instance `update` on a model with no primary key
does not fail at the point of the call — it issues a storage call (with
an `"undefined"`-keyed predicate) and resolves. -/
theorem C4_cex :
    defaultUpdate mcName db0 [("name", JSVal.vStr "a")] [] =
      { selfAfter := [("name", JSVal.vStr "a")],
        trace := [KnexCall.update "t" [("undefined", JSVal.vUndefined)]
          [("name", JSVal.vStr "a")]],
        result := Except.ok [("name", JSVal.vStr "a")] } :=
  rfl

/-! ## Claim C5 -/

theorem objHasKey_objRemove_self (o : Obj) (k : String) :
    objHasKey (objRemove o k) k = false := by
  induction o with
  | nil => rfl
  | cons hd tl ih =>
    unfold objRemove at *
    by_cases h : hd.1 == k <;> simp [List.filter_cons, h, objHasKey, ih]

theorem objHasKey_objRemove_mono (o : Obj) (k j : String)
    (h : objHasKey o k = false) : objHasKey (objRemove o j) k = false := by
  induction o with
  | nil => rfl
  | cons hd tl ih =>
    simp only [objHasKey, Bool.or_eq_false_iff] at h
    unfold objRemove at *
    by_cases hj : hd.1 == j <;>
      simp [List.filter_cons, hj, objHasKey, ih h.2, h.1]

theorem stripAutoIncrement_keeps_absent (defs : Defs) (self : Obj) (k : String)
    (h : objHasKey self k = false) :
    objHasKey (stripAutoIncrement defs self) k = false := by
  induction defs generalizing self with
  | nil => exact h
  | cons hd tl ih =>
    obtain ⟨k', d⟩ := hd
    unfold stripAutoIncrement
    by_cases hai : d.autoIncrement = true
    · simp only [hai, if_true]
      exact ih _ (objHasKey_objRemove_mono _ _ _ h)
    · simp only [hai, if_false]
      exact ih _ h

theorem stripAutoIncrement_removes (defs : Defs) (self : Obj) (k : String) (d : FieldDef)
    (hmem : (k, d) ∈ defs) (hai : d.autoIncrement = true) :
    objHasKey (stripAutoIncrement defs self) k = false := by
  induction defs generalizing self with
  | nil => cases hmem
  | cons hd tl ih =>
    obtain ⟨k', d'⟩ := hd
    rcases List.mem_cons.mp hmem with hh | ht
    · obtain ⟨hk, hd2⟩ := Prod.mk.injEq .. ▸ hh
      unfold stripAutoIncrement
      rw [← hk, ← hd2, hai]
      simp only [if_true]
      exact stripAutoIncrement_keeps_absent tl _ k (objHasKey_objRemove_self self k)
    · unfold stripAutoIncrement
      cases h2 : d'.autoIncrement
      · rw [if_neg (by simp)]
        exact ih _ ht
      · rw [if_pos rfl]
        exact ih _ ht

/-- C5 (amended): the default instance `insert()` strips every
`autoIncrement` field from the data it submits; when the stored primary
key is truthy — i.e. the schema declares a primary key whose field name
is non-empty — it issues the insert, then re-fetches with the first
positional element of the collaborator's insert result as the primary-key
value (through `getOne`) and resolves with that fetched record; when no
primary key is declared, **or the declared primary-key field is named by
the empty string**, it resolves with the raw insert result and issues no
refetch. -/
theorem C5_insert_behavior (mc : ModelClass) (db : KnexDB) (self : Obj) :
    (defaultInsert mc db self).selfAfter = stripAutoIncrement mc.defs self ∧
    (∀ k d, (k, d) ∈ mc.defs → d.autoIncrement = true →
       objHasKey (stripAutoIncrement mc.defs self) k = false) ∧
    (pkTruthy mc.primaryKey = true →
       (defaultInsert mc db self).trace =
         KnexCall.insert mc.table (stripAutoIncrement mc.defs self) ::
           (defaultGetOne mc db (JSVal.vObj [(pkKeyName mc.primaryKey,
             (db.insertResp (KnexCall.insert mc.table (stripAutoIncrement mc.defs self))).headD
               JSVal.vUndefined)])).trace ∧
       (defaultInsert mc db self).result =
         (defaultGetOne mc db (JSVal.vObj [(pkKeyName mc.primaryKey,
           (db.insertResp (KnexCall.insert mc.table (stripAutoIncrement mc.defs self))).headD
             JSVal.vUndefined)])).result.map InsertResult.fetched) ∧
    (pkTruthy mc.primaryKey = false →
       defaultInsert mc db self =
         { selfAfter := stripAutoIncrement mc.defs self,
           trace := [KnexCall.insert mc.table (stripAutoIncrement mc.defs self)],
           result := Except.ok (InsertResult.rawResult
             (db.insertResp (KnexCall.insert mc.table (stripAutoIncrement mc.defs self)))) }) := by
  refine ⟨?_, ?_, ?_, ?_⟩
  · unfold defaultInsert
    dsimp only
    by_cases hpk : pkTruthy mc.primaryKey <;> simp [hpk]
  · intro k d hmem hai
    exact stripAutoIncrement_removes mc.defs self k d hmem hai
  · intro hpk
    unfold defaultInsert
    dsimp only
    rw [hpk]
    simp
  · intro hpk
    unfold defaultInsert
    dsimp only
    rw [hpk]
    simp

/-- The model generated for the spec's scenario schema. -/
def mcScenario : ModelClass :=
  { table := "t", defs := scenarioDefs, primaryKey := some "id" }

/-- C5 witness: on the scenario schema, inserting `{id: 7, name: 'x'}`
strips `id`, issues the insert, and refetches by `id = 1` (the oracle's
insert result). -/
theorem C5_insert_behavior_witness :
    Model (JSVal.vStr "t") (some { fields := scenarioDefs }) = Except.ok mcScenario ∧
    objHasKey (stripAutoIncrement scenarioDefs [("id", JSVal.vNum 7), ("name", JSVal.vStr "x")])
      "id" = false ∧
    (defaultInsert mcScenario db0 [("id", JSVal.vNum 7), ("name", JSVal.vStr "x")]).trace =
      [KnexCall.insert "t" [("name", JSVal.vStr "x")],
       KnexCall.select "t" [("id", JSVal.vNum 1)] none none none] := by
  refine ⟨rfl, ?_, ?_⟩
  · exact (C5_insert_behavior mcScenario db0
      [("id", JSVal.vNum 7), ("name", JSVal.vStr "x")]).2.1 "id"
      { type := "positive", primaryId := true, autoIncrement := true }
      (List.mem_cons_self _ _) rfl
  · rw [((C5_insert_behavior mcScenario db0
      [("id", JSVal.vNum 7), ("name", JSVal.vStr "x")]).2.2.1 rfl).1]
    rfl

/-- C5 counterexample: a schema that declares a primary key on a field
named by the empty string.  `m._primaryKey` is then `''`, which is falsy,
so `insert()` takes the no-primary-key branch: it resolves with the raw
insert result and never refetches — contradicting "if the schema declares
a primary key, it re-fetches the inserted row". -/
theorem C5_cex :
    Model (JSVal.vStr "t") (some { fields := [("", { type := "number", primaryId := true })] }) =
      Except.ok { table := "t", defs := [("", { type := "number", primaryId := true })],
                  primaryKey := some "" } ∧
    defaultInsert
        { table := "t", defs := [("", { type := "number", primaryId := true })],
          primaryKey := some "" } db0 [("", JSVal.vNum 5)] =
      { selfAfter := [("", JSVal.vNum 5)],
        trace := [KnexCall.insert "t" [("", JSVal.vNum 5)]],
        result := Except.ok (InsertResult.rawResult [JSVal.vNum 1]) } :=
  ⟨rfl, rfl⟩

/-! ## Claim C6 -/

/-- C6: the default `deleteWhere(query)`.  On a model without a `deleted`
field it issues exactly one hard delete filtered on the given predicate
map; on a model with a `deleted` field it issues exactly one update
setting `deleted = 1`, filtered on the predicate map extended (at the
`deleted` key) with `deleted = 0`; a non-object argument fails
synchronously — empty trace — with a type error. -/
theorem C6_deleteWhere_behavior (mc : ModelClass) (db : KnexDB) (q : Obj) (v : JSVal)
    (hv : checkObject v = false) :
    (mc.hasDeletedBit = false →
       defaultDeleteWhere mc db (JSVal.vObj q) =
         { queryAfter := JSVal.vObj q, trace := [KnexCall.del mc.table q],
           result := Except.ok (db.writeResp (KnexCall.del mc.table q)) }) ∧
    (mc.hasDeletedBit = true →
       defaultDeleteWhere mc db (JSVal.vObj q) =
         { queryAfter := JSVal.vObj (objSet q "deleted" (JSVal.vNum 0)),
           trace := [KnexCall.update mc.table (objSet q "deleted" (JSVal.vNum 0))
             [("deleted", JSVal.vNum 1)]],
           result := Except.ok (db.writeResp (KnexCall.update mc.table
             (objSet q "deleted" (JSVal.vNum 0)) [("deleted", JSVal.vNum 1)])) }) ∧
    defaultDeleteWhere mc db v =
      { queryAfter := v, trace := [],
        result := Except.error
          (JsErr.typeError "deleteWhere() requires an argument of type object") } := by
  refine ⟨?_, ?_, ?_⟩
  · intro h
    unfold defaultDeleteWhere
    simp [h, checkObject, asObjOrEmpty, jsTruthy]
  · intro h
    unfold defaultDeleteWhere
    simp [h, checkObject, asObjOrEmpty, jsTruthy]
  · unfold defaultDeleteWhere
    simp [hv]

/-- C6 witness: both modes and the non-object failure, on concrete
models and the query `{foo: 'bar'}`. -/
theorem C6_deleteWhere_behavior_witness :
    defaultDeleteWhere mcName db0 (JSVal.vObj [("foo", JSVal.vStr "bar")]) =
      { queryAfter := JSVal.vObj [("foo", JSVal.vStr "bar")],
        trace := [KnexCall.del "t" [("foo", JSVal.vStr "bar")]],
        result := Except.ok 1 } ∧
    defaultDeleteWhere mcSoft db0 (JSVal.vObj [("foo", JSVal.vStr "bar")]) =
      { queryAfter := JSVal.vObj [("foo", JSVal.vStr "bar"), ("deleted", JSVal.vNum 0)],
        trace := [KnexCall.update "t" [("foo", JSVal.vStr "bar"), ("deleted", JSVal.vNum 0)]
          [("deleted", JSVal.vNum 1)]],
        result := Except.ok 1 } ∧
    defaultDeleteWhere mcSoft db0 (JSVal.vStr "x") =
      { queryAfter := JSVal.vStr "x", trace := [],
        result := Except.error
          (JsErr.typeError "deleteWhere() requires an argument of type object") } :=
  ⟨(C6_deleteWhere_behavior mcName db0 [("foo", JSVal.vStr "bar")] (JSVal.vStr "x") rfl).1 rfl,
   (C6_deleteWhere_behavior mcSoft db0 [("foo", JSVal.vStr "bar")] (JSVal.vStr "x") rfl).2.1 rfl,
   (C6_deleteWhere_behavior mcSoft db0 [("foo", JSVal.vStr "bar")] (JSVal.vStr "x") rfl).2.2⟩

/-! ## Claim C7 -/

/-- The pairs `(key, tag)` of the function-valued entries of an
`_overrides` object, in order. -/
def ovIds : List (String × OvEntry) → List (String × Nat)
  | [] => []
  | (k, OvEntry.fn i) :: rest => (k, i) :: ovIds rest
  | (_, OvEntry.notFn _) :: rest => ovIds rest

/-- The implementation an operation slot should receive according to the
supplied overrides: the supplied function for that key, else the
default. -/
def instSlot (ov : List (String × OvEntry)) (key : String) : OpImpl :=
  match (ovIds ov).lookup key with
  | some i => OpImpl.override i
  | none => OpImpl.dflt

theorem validateOverrides_all_valid (table : String) (ov : List (String × OvEntry))
    (h : ∀ p ∈ ov, mutableMethods.contains p.1 = true ∧ ∃ i, p.2 = OvEntry.fn i) :
    validateOverrides table ov = Except.ok (ovIds ov) := by
  induction ov with
  | nil => rfl
  | cons hd tl ih =>
    obtain ⟨hc, i, hfn⟩ := h hd (List.mem_cons_self _ _)
    obtain ⟨k, e⟩ := hd
    dsimp only at hfn
    subst hfn
    simp only [validateOverrides, hc, if_true]
    rw [ih (fun p hp => h p (List.mem_cons_of_mem _ hp))]
    rfl

theorem validateOverrides_bad_key (table : String) (l1 : List (String × OvEntry))
    (k : String) (e : OvEntry) (l2 : List (String × OvEntry))
    (hpre : ∀ p ∈ l1, mutableMethods.contains p.1 = true ∧ ∃ i, p.2 = OvEntry.fn i)
    (hk : mutableMethods.contains k = false) :
    validateOverrides table (l1 ++ (k, e) :: l2) =
      Except.error (JsErr.error ("Cannot override immutable method " ++ k ++
        " on model " ++ table)) := by
  induction l1 with
  | nil =>
    rw [List.nil_append]
    simp only [validateOverrides, hk]
    rfl
  | cons hd tl ih =>
    obtain ⟨hc, i, hfn⟩ := hpre hd (List.mem_cons_self _ _)
    obtain ⟨k', e'⟩ := hd
    dsimp only at hfn
    subst hfn
    rw [List.cons_append]
    simp only [validateOverrides, hc, if_true]
    rw [ih (fun p hp => hpre p (List.mem_cons_of_mem _ hp))]

theorem validateOverrides_not_function (table : String) (l1 : List (String × OvEntry))
    (k : String) (v : JSVal) (l2 : List (String × OvEntry))
    (hpre : ∀ p ∈ l1, mutableMethods.contains p.1 = true ∧ ∃ i, p.2 = OvEntry.fn i)
    (hk : mutableMethods.contains k = true) :
    validateOverrides table (l1 ++ (k, OvEntry.notFn v) :: l2) =
      Except.error (JsErr.typeError "Model _overrides object should only contain functions") := by
  induction l1 with
  | nil =>
    rw [List.nil_append]
    simp only [validateOverrides, hk, if_true]
  | cons hd tl ih =>
    obtain ⟨hc, i, hfn⟩ := hpre hd (List.mem_cons_self _ _)
    obtain ⟨k', e'⟩ := hd
    dsimp only at hfn
    subst hfn
    rw [List.cons_append]
    simp only [validateOverrides, hc, if_true]
    rw [ih (fun p hp => hpre p (List.mem_cons_of_mem _ hp))]

theorem ovIds_lookup_none (ov : List (String × OvEntry)) (key : String)
    (hall : ∀ p ∈ ov, mutableMethods.contains p.1 = true ∧ ∃ i, p.2 = OvEntry.fn i)
    (hkey : mutableMethods.contains key = false) :
    (ovIds ov).lookup key = none := by
  induction ov with
  | nil => rfl
  | cons hd tl ih =>
    obtain ⟨hc, i, hfn⟩ := hall hd (List.mem_cons_self _ _)
    obtain ⟨k, e⟩ := hd
    dsimp only at hfn
    subst hfn
    have hne : (key == k) = false := by
      cases h : (key == k)
      · rfl
      · exfalso
        rw [eq_of_beq h] at hkey
        rw [hkey] at hc
        exact Bool.noConfusion hc
    simp only [ovIds, List.lookup, hne, cond_false]
    exact ih (fun p hp => hall p (List.mem_cons_of_mem _ hp))

/-- C7 (amended): the allowed mutable set is exactly
`{get, getOne, insert, update}` — `deleteWhere` is *not* overridable in
any revision, even the latest, which merely consults a `deleteWhere`
override slot that validation can never populate.  A key outside the set
(first offending entry) fails definition naming the key and the table; an
allowed key mapped to a non-function fails with a type error; when every
entry is an allowed key mapped to a function, each supplied override is
installed as exactly that operation's implementation and every other
operation — including `deleteWhere` and `delete` — keeps the default. -/
theorem C7_overrides (table : String) (s : Schema) (ov : List (String × OvEntry))
    (hov : s.overrides = some ov) :
    (∀ l1 k e l2, ov = l1 ++ (k, e) :: l2 →
       (∀ p ∈ l1, mutableMethods.contains p.1 = true ∧ ∃ i, p.2 = OvEntry.fn i) →
       mutableMethods.contains k = false →
       Model (JSVal.vStr table) (some s) =
         Except.error (JsErr.error ("Cannot override immutable method " ++ k ++
           " on model " ++ table))) ∧
    (∀ l1 k v l2, ov = l1 ++ (k, OvEntry.notFn v) :: l2 →
       (∀ p ∈ l1, mutableMethods.contains p.1 = true ∧ ∃ i, p.2 = OvEntry.fn i) →
       mutableMethods.contains k = true →
       Model (JSVal.vStr table) (some s) =
         Except.error (JsErr.typeError "Model _overrides object should only contain functions")) ∧
    ((∀ p ∈ ov, mutableMethods.contains p.1 = true ∧ ∃ i, p.2 = OvEntry.fn i) →
       ∀ mc, Model (JSVal.vStr table) (some s) = Except.ok mc →
         mc.getI = instSlot ov "get" ∧ mc.getOneI = instSlot ov "getOne" ∧
         mc.insertI = instSlot ov "insert" ∧ mc.updateI = instSlot ov "update" ∧
         mc.deleteWhereI = OpImpl.dflt ∧ mc.deleteI = OpImpl.dflt) := by
  refine ⟨?_, ?_, ?_⟩
  · intro l1 k e l2 hsplit hpre hk
    simp only [Model, hov, hsplit]
    rw [validateOverrides_bad_key table l1 k e l2 hpre hk]
  · intro l1 k v l2 hsplit hpre hk
    simp only [Model, hov, hsplit]
    rw [validateOverrides_not_function table l1 k v l2 hpre hk]
  · intro hall mc hmc
    simp only [Model, hov, validateOverrides_all_valid table ov hall] at hmc
    split at hmc
    · exact Except.noConfusion hmc
    · injection hmc with h2
      rw [← h2]
      have hlk : ∀ key, instSlot ov key = installOp (ovIds ov) key := fun _ => rfl
      refine ⟨(hlk "get").symm, (hlk "getOne").symm, (hlk "insert").symm,
        (hlk "update").symm, ?_, ?_⟩
      · show installOp (ovIds ov) "deleteWhere" = OpImpl.dflt
        unfold installOp
        rw [ovIds_lookup_none ov "deleteWhere" hall (by decide)]
      · show installOp (ovIds ov) "delete" = OpImpl.dflt
        unfold installOp
        rw [ovIds_lookup_none ov "delete" hall (by decide)]

/-- C7 witness: overriding `get` installs exactly that function and
leaves everything else default; trying to override `isValid` fails naming
`isValid` and the table. -/
theorem C7_overrides_witness :
    Model (JSVal.vStr "t")
        (some { fields := [], overrides := some [("isValid", OvEntry.fn 3)] }) =
      Except.error (JsErr.error "Cannot override immutable method isValid on model t") ∧
    (∀ mc, Model (JSVal.vStr "t")
        (some { fields := [], overrides := some [("get", OvEntry.fn 5)] }) = Except.ok mc →
      mc.getI = OpImpl.override 5 ∧ mc.getOneI = OpImpl.dflt ∧
      mc.insertI = OpImpl.dflt ∧ mc.updateI = OpImpl.dflt ∧
      mc.deleteWhereI = OpImpl.dflt ∧ mc.deleteI = OpImpl.dflt) := by
  constructor
  · exact (C7_overrides "t" { fields := [], overrides := some [("isValid", OvEntry.fn 3)] }
      [("isValid", OvEntry.fn 3)] rfl).1 [] "isValid" (OvEntry.fn 3) [] rfl
      (fun p hp => absurd hp (List.not_mem_nil p)) rfl
  · intro mc hmc
    have h := (C7_overrides "t" { fields := [], overrides := some [("get", OvEntry.fn 5)] }
      [("get", OvEntry.fn 5)] rfl).2.2
      (by
        intro p hp
        rcases List.mem_singleton.mp hp with h
        rw [h]
        exact ⟨rfl, 5, rfl⟩) mc hmc
    exact h

/-- C7 counterexample: in the canonical (latest) revision, supplying a
function override for `deleteWhere` does not install it — model
definition fails, because `deleteWhere` is not in `mutableMethods`. -/
theorem C7_cex :
    Model (JSVal.vStr "t")
        (some { fields := [], overrides := some [("deleteWhere", OvEntry.fn 9)] }) =
      Except.error (JsErr.error "Cannot override immutable method deleteWhere on model t") :=
  rfl

/-! ## Claim C8 -/

theorem scanMeta_second_pk (table : String) (l2 : Defs) (k2 : String) (d2 : FieldDef)
    (l3 : Defs) (pk : Option String) (del : Bool)
    (hpk : pkTruthy pk = true) (h2 : d2.primaryId = true) :
    scanMeta table (l2 ++ (k2, d2) :: l3) pk del =
      Except.error (JsErr.error ("Cannot have multiple primary keys on model " ++ table)) := by
  induction l2 generalizing del with
  | nil =>
    rw [List.nil_append]
    simp [scanMeta, h2, hpk]
  | cons hd tl ih =>
    obtain ⟨k, d⟩ := hd
    rw [List.cons_append]
    by_cases hdp : d.primaryId = true
    · simp [scanMeta, hdp, hpk]
    · simp only [scanMeta, hdp, Bool.false_and, Bool.not_false, if_false]
      exact ih _

theorem scanMeta_two_pks (table : String) (l1 : Defs) (k1 : String) (d1 : FieldDef)
    (l2 : Defs) (k2 : String) (d2 : FieldDef) (l3 : Defs) (pk : Option String) (del : Bool)
    (h1 : d1.primaryId = true) (h2 : d2.primaryId = true) (hk1 : (k1 == "") = false) :
    scanMeta table (l1 ++ (k1, d1) :: l2 ++ (k2, d2) :: l3) pk del =
      Except.error (JsErr.error ("Cannot have multiple primary keys on model " ++ table)) := by
  induction l1 generalizing pk del with
  | nil =>
    rw [List.nil_append]
    by_cases hpk : pkTruthy pk = true
    · simp [scanMeta, h1, hpk]
    · rw [Bool.not_eq_true] at hpk
      simp only [scanMeta, h1, hpk, Bool.not_false, Bool.and_self, if_true]
      exact scanMeta_second_pk table l2 k2 d2 l3 (some k1) _
        (by simp [pkTruthy, hk1]) h2
  | cons hd tl ih =>
    obtain ⟨k, d⟩ := hd
    rw [List.cons_append]
    by_cases hdp : d.primaryId = true
    · by_cases hpk : pkTruthy pk = true
      · simp [scanMeta, hdp, hpk]
      · rw [Bool.not_eq_true] at hpk
        simp only [scanMeta, hdp, hpk, Bool.not_false, Bool.and_self, if_true]
        exact ih _ _
    · simp only [scanMeta, hdp, Bool.false_and, Bool.not_false, if_false]
      exact ih _ _

/-- C8 (amended): a schema in which two distinct fields both set
`primaryId: true` fails at definition time regardless of field order,
**provided the first such field's name is non-empty**.  The duplicate
check tests JS truthiness of the stored key name, so a first primary-key
field named by the empty string defeats it (see the counterexample). -/
theorem C8_two_primary_ids (table : String) (s : Schema) (l1 : Defs) (k1 : String)
    (d1 : FieldDef) (l2 : Defs) (k2 : String) (d2 : FieldDef) (l3 : Defs)
    (hf : s.fields = l1 ++ (k1, d1) :: l2 ++ (k2, d2) :: l3)
    (h1 : d1.primaryId = true) (h2 : d2.primaryId = true)
    (hk1 : (k1 == "") = false) :
    ∃ e, Model (JSVal.vStr table) (some s) = Except.error e := by
  cases hov : (match s.overrides with
    | some ov => validateOverrides table ov
    | none => Except.ok ([] : List (String × Nat))) with
  | error e =>
    refine ⟨e, ?_⟩
    simp only [Model, hov]
  | ok installed =>
    refine ⟨JsErr.error ("Cannot have multiple primary keys on model " ++ table), ?_⟩
    simp only [Model, hov, hf,
      scanMeta_two_pks table l1 k1 d1 l2 k2 d2 l3 none false h1 h2 hk1]

/-- C8 witness: `{a: primaryId, b: primaryId}` fails at definition
time. -/
theorem C8_two_primary_ids_witness :
    ∃ e, Model (JSVal.vStr "t")
        (some { fields := [("a", { type := "number", primaryId := true }),
                           ("b", { type := "number", primaryId := true })] }) =
      Except.error e :=
  C8_two_primary_ids "t"
    { fields := [("a", { type := "number", primaryId := true }),
                 ("b", { type := "number", primaryId := true })] }
    [] "a" { type := "number", primaryId := true }
    [] "b" { type := "number", primaryId := true } [] rfl rfl rfl rfl

/-- C8 counterexample: with the first primary-key field named by the
empty string, definition succeeds — `m._primaryKey = ''` is falsy, so the
second `primaryId` field silently overwrites it instead of throwing. -/
theorem C8_cex :
    Model (JSVal.vStr "t")
        (some { fields := [("", { type := "number", primaryId := true }),
                           ("x", { type := "number", primaryId := true })] }) =
      Except.ok { table := "t",
                  defs := [("", { type := "number", primaryId := true }),
                           ("x", { type := "number", primaryId := true })],
                  primaryKey := some "x" } ∧
    ("" : String) ≠ "x" :=
  ⟨rfl, by decide⟩

/-! ## Claim C9 -/

/-- C9 (amended): a table argument that is not a string, or a schema
argument that is not an object, fails model definition synchronously with
a type error.  The empty string, however, *is* accepted as a table name:
`check.string` tests only `typeof` (see the counterexample). -/
theorem C9_arg_guard (t : JSVal) (s : Option Schema)
    (h : checkString t = false ∨ s = none) :
    Model t s = Except.error (JsErr.typeError
      "Model() must be called with a string table name and an object schema definition") := by
  rcases h with h | h
  · cases t <;> cases s <;> first
      | rfl
      | exact absurd h (by simp [checkString])
  · subst h
    cases t <;> rfl

/-- C9 witness: a numeric table name is rejected with the type error. -/
theorem C9_arg_guard_witness :
    Model (JSVal.vNum 123) (some { fields := [] }) =
      Except.error (JsErr.typeError
        "Model() must be called with a string table name and an object schema definition") :=
  C9_arg_guard (JSVal.vNum 123) (some { fields := [] }) (Or.inl rfl)

/-- C9 counterexample: the empty string passes the `check.string` guard,
so `Model('', {})` succeeds — the empty string is not rejected. -/
theorem C9_cex :
    Model (JSVal.vStr "") (some { fields := [] }) =
      Except.ok { table := "", defs := [] } :=
  rfl

/-! ## Claim C10 -/

/-- Whether a JS value is an object owning the given key. -/
def jsvHasKey : JSVal → String → Bool
  | JSVal.vObj fs, k => objHasKey fs k
  | _, _ => false

theorem objHasKey_objSet_self (o : Obj) (k : String) (v : JSVal) :
    objHasKey (objSet o k v) k = true := by
  induction o with
  | nil => simp [objSet, objHasKey]
  | cons hd tl ih =>
    unfold objSet
    by_cases h : hd.1 == k <;> simp [h, objHasKey, ih]

theorem objLookup_objSet_self (o : Obj) (k : String) (v : JSVal) :
    objLookup (objSet o k v) k = v := by
  induction o with
  | nil => simp [objSet, objLookup]
  | cons hd tl ih =>
    unfold objSet
    by_cases h : hd.1 == k <;> simp [h, objLookup, ih]

theorem objHasKey_of_lookup_defined (o : Obj) (k : String)
    (h : jsIsUndefined (objLookup o k) = false) : objHasKey o k = true := by
  induction o with
  | nil => simp [objLookup, jsIsUndefined] at h
  | cons hd tl ih =>
    unfold objLookup at h
    unfold objHasKey
    by_cases hk : hd.1 == k <;> simp [hk] at h ⊢
    exact ih h

/-- C10: on a soft-delete model the default `get`, `getOne` and
`deleteWhere` mutate the caller's query object in place: after the call
the caller's own object reads back with a `deleted` entry (`get`/`getOne`
assign `0` only when the caller's `deleted` read `undefined`;
`deleteWhere` assigns `0` unconditionally, overwriting any
caller-supplied value). -/
theorem C10_query_mutated_in_place (mc : ModelClass) (db : KnexDB) (q : Obj)
    (options : JSVal) (hd : mc.hasDeletedBit = true)
    (hopt : jsTruthy options = false ∨ checkObject options = true) :
    (defaultGet mc db (JSVal.vObj q) options).queryAfter =
      JSVal.vObj (if jsIsUndefined (objLookup q "deleted") then
        objSet q "deleted" (JSVal.vNum 0) else q) ∧
    (defaultGetOne mc db (JSVal.vObj q)).queryAfter =
      JSVal.vObj (if jsIsUndefined (objLookup q "deleted") then
        objSet q "deleted" (JSVal.vNum 0) else q) ∧
    (defaultDeleteWhere mc db (JSVal.vObj q)).queryAfter =
      JSVal.vObj (objSet q "deleted" (JSVal.vNum 0)) ∧
    jsvHasKey (defaultGet mc db (JSVal.vObj q) options).queryAfter "deleted" = true ∧
    jsvHasKey (defaultGetOne mc db (JSVal.vObj q)).queryAfter "deleted" = true ∧
    jsvHasKey (defaultDeleteWhere mc db (JSVal.vObj q)).queryAfter "deleted" = true ∧
    objLookup (objSet q "deleted" (JSVal.vNum 0)) "deleted" = JSVal.vNum 0 := by
  have hg : ((jsTruthy (JSVal.vObj q) && !(checkObject (JSVal.vObj q))) ||
      (jsTruthy options && !(checkObject options))) = false := by
    have h1 : (jsTruthy (JSVal.vObj q) && !(checkObject (JSVal.vObj q))) = false := rfl
    rw [h1, Bool.false_or]
    rcases hopt with h | h
    · rw [h, Bool.false_and]
    · rw [h, Bool.not_true, Bool.and_false]
  have hga : (defaultGet mc db (JSVal.vObj q) options).queryAfter =
      JSVal.vObj (if jsIsUndefined (objLookup q "deleted") then
        objSet q "deleted" (JSVal.vNum 0) else q) := by
    unfold defaultGet
    rw [hg]
    simp [asObjOrEmpty, jsTruthy, checkObject, hd]
  have hgo : (defaultGetOne mc db (JSVal.vObj q)).queryAfter =
      JSVal.vObj (if jsIsUndefined (objLookup q "deleted") then
        objSet q "deleted" (JSVal.vNum 0) else q) := by
    unfold defaultGetOne
    simp [asObjOrEmpty, jsTruthy, checkObject, hd]
  have hdw : (defaultDeleteWhere mc db (JSVal.vObj q)).queryAfter =
      JSVal.vObj (objSet q "deleted" (JSVal.vNum 0)) := by
    unfold defaultDeleteWhere
    simp [asObjOrEmpty, jsTruthy, checkObject, hd]
  have hkey : objHasKey (if jsIsUndefined (objLookup q "deleted") then
      objSet q "deleted" (JSVal.vNum 0) else q) "deleted" = true := by
    by_cases hu : jsIsUndefined (objLookup q "deleted") = true
    · rw [if_pos hu]
      exact objHasKey_objSet_self q "deleted" (JSVal.vNum 0)
    · rw [Bool.not_eq_true] at hu
      rw [if_neg (by simp [hu])]
      exact objHasKey_of_lookup_defined q "deleted" hu
  refine ⟨hga, hgo, hdw, ?_, ?_, ?_, objLookup_objSet_self q "deleted" (JSVal.vNum 0)⟩
  · rw [hga]
    exact hkey
  · rw [hgo]
    exact hkey
  · rw [hdw]
    exact objHasKey_objSet_self q "deleted" (JSVal.vNum 0)

/-- C10 witness: the query `{foo: 'bar'}` gains `deleted: 0` in place on
all three operations of the soft-delete model. -/
theorem C10_query_mutated_in_place_witness :
    (defaultGetOne mcSoft db0 (JSVal.vObj [("foo", JSVal.vStr "bar")])).queryAfter =
      JSVal.vObj [("foo", JSVal.vStr "bar"), ("deleted", JSVal.vNum 0)] ∧
    jsvHasKey (defaultDeleteWhere mcSoft db0
      (JSVal.vObj [("foo", JSVal.vStr "bar")])).queryAfter "deleted" = true :=
  ⟨(C10_query_mutated_in_place mcSoft db0 [("foo", JSVal.vStr "bar")]
      JSVal.vUndefined rfl (Or.inl rfl)).2.1,
   (C10_query_mutated_in_place mcSoft db0 [("foo", JSVal.vStr "bar")]
      JSVal.vUndefined rfl (Or.inl rfl)).2.2.2.2.2.1⟩

end KnexModeller
